import Mathlib

/-!
# Verification of the Game Boy emulation engine

A shallow embedding, in Lean 4, of the parts of the Game Boy emulator
(cartridge bank controller, interrupt dispatch, frame-budget loop, CPU
register file, CGB palettes) that the specification's claims are about.

Conventions of the embedding:
* Go's fixed-width integers (`byte`, `uint16`, `uint32`, `int32`, `int`) are
  modelled as `Nat` (or `Int` for the signed cycle counters), with the
  wraparound of a conversion or subtraction made explicit (`% 0x100`,
  `% 0x10000`, `&&& 0x1f`, ...) exactly where the Go operation masks.
* Go's bounds-checked array indexing is modelled with `Option`: `none` is the
  runtime panic of an out-of-range index, `some v` a successful access.
  Functions that cannot panic are total.
* Fixed-size byte arrays (`[0x20000]byte`, `[0x10]byte`, `[0x40]byte`) are
  modelled as total maps `Nat → Nat` (zero-initialised, like Go arrays)
  together with the explicit bound check of each indexing site.
-/

namespace GB

/-- 16-bit wraparound subtraction: Go's `a - b` at type `uint16`
(for `b ≤ 0x10000`). -/
def u16sub (a b : Nat) : Nat := (a + (0x10000 - b % 0x10000)) % 0x10000

theorem u16sub_eq_sub (a b : Nat) (hb : b ≤ a) (ha : a < 0x10000) :
    u16sub a b = a - b := by
  unfold u16sub
  omega

/-- `bits.go`: `BitIsSet` returns whether bit `bit` of `value` is set
(`(value>>bit)&1 == 1`). -/
def BitIsSet (value bit : Nat) : Bool := (value >>> bit) &&& 1 == 1

/-- `bits.go`: `SetBit` sets a bit and returns the new value
(`value | (1 << bit)`; the shift is performed at type `byte`). -/
def SetBit (value bit : Nat) : Nat := value ||| ((1 <<< bit) % 0x100)

/-- `bits.go`: `ResetBit` clears a bit and returns the new value
(`value & ^(1 << bit)`; complement and shift at type `byte`). -/
def ResetBit (value bit : Nat) : Nat := value &&& (((1 <<< bit) % 0x100) ^^^ 0xFF)

theorem bitIsSet_eq_testBit (v b : Nat) : BitIsSet v b = v.testBit b := by
  simp only [BitIsSet, Nat.testBit_to_div_mod, Nat.shiftRight_eq_div_pow,
    Nat.and_one_is_mod]
  by_cases h : v / 2 ^ b % 2 = 1 <;> simp [h]

/-! ## Cartridge / bank controller (`controller.go`) -/

/-- `controller.go`: the `memoryBankType` enumeration. -/
inductive MemoryBankType
  | romOnly
  | mbc1
  | mbc2
  | mbc3
  | mbc5
  deriving DecidableEq

/-- `controller.go`: mode flag `DMG = 1 << 0`. -/
def DMG : Nat := 1

/-- `controller.go`: mode flag `CGB = 1 << 1`. -/
def CGB : Nat := 2

/-- `controller.go`: the `Cart` struct.  The `title` and `filename` fields
(only used for window titles and save-file paths, i.e. file I/O) are omitted;
the remaining fields are exactly the source's.  Go zero values are the field
defaults. -/
structure Cart where
  mode : Nat := 0
  memoryBank : MemoryBankType := .romOnly
  rom : List Nat := []
  romBank : Nat := 0
  romBanking : Bool := false
  ram : Nat → Nat := fun _ => 0
  ramBank : Nat := 0
  ramEnabled : Bool := false
  rtc : Nat → Nat := fun _ => 0
  latchedRtc : Nat → Nat := fun _ => 0
  latched : Bool := false

/-- Bounds-checked read of the `ram [0x20000]byte` array. -/
def ramGet (ram : Nat → Nat) (i : Nat) : Option Nat :=
  if i < 0x20000 then some (ram i) else none

/-- Bounds-checked write to the `ram [0x20000]byte` array. -/
def ramSet (ram : Nat → Nat) (i v : Nat) : Option (Nat → Nat) :=
  if i < 0x20000 then some (Function.update ram i v) else none

/-- Bounds-checked read of an `[0x10]byte` RTC register array. -/
def rtcGet (r : Nat → Nat) (i : Nat) : Option Nat :=
  if i < 0x10 then some (r i) else none

/-- Bounds-checked write to an `[0x10]byte` RTC register array. -/
def rtcSet (r : Nat → Nat) (i v : Nat) : Option (Nat → Nat) :=
  if i < 0x10 then some (Function.update r i v) else none

/-- `controller.go`: `Cart.Read` returns the value at a memory address of the
cartridge.  `none` models the Go runtime panic of an out-of-range slice or
array index (the `rom` slice, the `ram` array, the 16-byte RTC arrays). -/
def Cart.Read (c : Cart) (address : Nat) : Option Nat :=
  match c.memoryBank with
  | .romOnly => c.rom.get? address
  | .mbc1 =>
      if address < 0x4000 then c.rom.get? address
      else if address < 0x8000 then
        c.rom.get? (u16sub address 0x4000 + c.romBank * 0x4000)
      else ramGet c.ram (0x2000 * c.ramBank + u16sub address 0xA000)
  | .mbc2 =>
      if address < 0x4000 then c.rom.get? address
      else if address < 0x8000 then
        c.rom.get? (u16sub address 0x4000 + c.romBank * 0x4000)
      else ramGet c.ram (u16sub address 0xA000)
  | .mbc3 =>
      if address < 0x4000 then c.rom.get? address
      else if address < 0x8000 then
        c.rom.get? (u16sub address 0x4000 + c.romBank * 0x4000)
      else if 0x4 ≤ c.ramBank then
        (if c.latched then rtcGet c.latchedRtc c.ramBank
         else rtcGet c.rtc c.ramBank)
      else ramGet c.ram (0x2000 * c.ramBank + u16sub address 0xA000)
  | .mbc5 =>
      if address < 0x4000 then c.rom.get? address
      else if address < 0x8000 then
        c.rom.get? (u16sub address 0x4000 + c.romBank * 0x4000)
      else ramGet c.ram (0x2000 * c.ramBank + u16sub address 0xA000)

/-- `controller.go`: `Cart.updateRomBankIfZero` (pure form: returns the
adjusted bank instead of mutating it). -/
def updateRomBankIfZero (romBank : Nat) : Nat :=
  if romBank = 0x00 ∨ romBank = 0x20 ∨ romBank = 0x40 ∨ romBank = 0x60 then
    romBank + 1
  else romBank

/-- `controller.go`: `Cart.WriteROM` applies the register-style side effects of
a write into the 0x0000–0x7FFF window.  `value` has Go type `byte`
(callers pass values `< 0x100`); no path can panic, so the function is
total. -/
def Cart.WriteROM (c : Cart) (address value : Nat) : Cart :=
  match c.memoryBank with
  | .romOnly => c
  | .mbc1 =>
      if address < 0x2000 then
        (if value &&& 0xF = 0xA then { c with ramEnabled := true }
         else if value &&& 0xF = 0x0 then { c with ramEnabled := false }
         else c)
      else if address < 0x4000 then
        { c with
          romBank := updateRomBankIfZero ((c.romBank &&& 0xe0) ||| (value &&& 0x1f)) }
      else if address < 0x6000 then
        (if c.romBanking then
          { c with
            romBank := updateRomBankIfZero ((c.romBank &&& 0x1F) ||| (value &&& 0xe0)) }
         else { c with ramBank := value &&& 0x3 })
      else if address < 0x8000 then
        (if value &&& 0x1 = 0x00 then { c with romBanking := true, ramBank := 0 }
         else { c with romBanking := false, romBank := c.romBank &&& 0x1F })
      else c
  | .mbc2 =>
      if address < 0x2000 then
        (if address &&& 0x100 = 0 then
          (if value &&& 0xF = 0xA then { c with ramEnabled := true }
           else if value &&& 0xF = 0x0 then { c with ramEnabled := false }
           else c)
         else c)
      else if address < 0x4000 then
        (if address &&& 0x100 = 0x100 then
          { c with romBank := updateRomBankIfZero (value &&& 0xF) }
         else c)
      else c
  | .mbc3 =>
      if address < 0x2000 then { c with ramEnabled := (value &&& 0xA) != 0 }
      else if address < 0x4000 then
        { c with
          romBank := if value &&& 0x7F = 0 then (value &&& 0x7F) + 1 else value &&& 0x7F }
      else if address < 0x6000 then { c with ramBank := value }
      else if address < 0x8000 then
        (if value = 0x1 then { c with latched := false }
         else if value = 0x0 then
          { c with latched := true, rtc := c.latchedRtc }
         else c)
      else c
  | .mbc5 =>
      if address < 0x2000 then
        (if value &&& 0xF = 0xA then { c with ramEnabled := true }
         else if value &&& 0xF = 0x0 then { c with ramEnabled := false }
         else c)
      else if address < 0x3000 then
        { c with romBank := (c.romBank &&& 0x100) ||| value }
      else if address < 0x4000 then
        { c with romBank := (c.romBank &&& 0xFF) ||| ((value &&& 0x01) <<< 8) }
      else if address < 0x6000 then { c with ramBank := value &&& 0xF }
      else c

/-- `controller.go`: `Cart.WriteRAM` writes into the 0xA000–0xBFFF window.
`none` models the Go runtime panic of an out-of-range array index. -/
def Cart.WriteRAM (c : Cart) (address value : Nat) : Option Cart :=
  match c.memoryBank with
  | .romOnly => some c
  | .mbc1 =>
      if c.ramEnabled then
        (ramSet c.ram (0x2000 * c.ramBank + u16sub address 0xA000) value).map
          fun r => { c with ram := r }
      else some c
  | .mbc2 =>
      if c.ramEnabled then
        (ramSet c.ram (u16sub address 0xA000) (value &&& 0xF)).map
          fun r => { c with ram := r }
      else some c
  | .mbc3 =>
      if c.ramEnabled then
        (if 0x4 ≤ c.ramBank then
          (rtcSet c.rtc c.ramBank value).map fun r => { c with rtc := r }
         else
          (ramSet c.ram (0x2000 * c.ramBank + u16sub address 0xA000) value).map
            fun r => { c with ram := r })
      else some c
  | .mbc5 =>
      if c.ramEnabled then
        (ramSet c.ram (0x2000 * c.ramBank + u16sub address 0xA000) value).map
          fun r => { c with ram := r }
      else some c

/-- `controller.go`: `NewCart` builds a cartridge from a ROM byte buffer.
The two header reads `rom[0x0143]` and `rom[0x147]` are performed
unconditionally; `none` models the Go runtime panic when the buffer is too
short for them.  The `initGameSaves` branch for battery-backed carts does only
file I/O (loading a save file and starting the autosave loop) and leaves every
modelled field unchanged, so it is omitted. -/
def NewCart (rom : List Nat) : Option Cart :=
  match rom.get? 0x143 with
  | none => none
  | some b143 =>
    let mode := if b143 = 0x80 then DMG ||| CGB
                else if b143 = 0xC0 then CGB
                else DMG
    match rom.get? 0x147 with
    | none => none
    | some mbcFlag =>
      let memoryBank : MemoryBankType :=
        if mbcFlag = 0x00 ∨ mbcFlag = 0x08 ∨ mbcFlag = 0x09 ∨
           mbcFlag = 0x0B ∨ mbcFlag = 0x0C ∨ mbcFlag = 0x0D then .romOnly
        else if mbcFlag ≤ 0x03 then .mbc1
        else if mbcFlag ≤ 0x06 then .mbc2
        else if mbcFlag ≤ 0x13 then .mbc3
        else if mbcFlag < 0x17 then .mbc1
        else if mbcFlag < 0x1F then .mbc5
        else .mbc1
      some { mode := mode, memoryBank := memoryBank, rom := rom, romBank := 1 }

/-! ## Claim C5: MBC3 RTC latch -/

/-- C5: for an MBC3 cartridge, writing 0x01 to 0x6000–0x7FFF clears the
latched flag and leaves the RTC registers unchanged; writing 0x00 sets the
latched flag and copies the 16-byte latched snapshot over the live RTC
registers (the copy direction is latched-to-live), leaving the snapshot itself
unchanged; writing any other value changes nothing. -/
theorem C5_mbc3_rtc_latch (c : Cart) (address : Nat)
    (hm : c.memoryBank = .mbc3) (h1 : 0x6000 ≤ address) (h2 : address < 0x8000) :
    c.WriteROM address 0x01 = { c with latched := false } ∧
    c.WriteROM address 0x00 = { c with latched := true, rtc := c.latchedRtc } ∧
    (c.WriteROM address 0x00).latchedRtc = c.latchedRtc ∧
    ∀ v, v ≠ 0x0 → v ≠ 0x1 → c.WriteROM address v = c := by
  rcases c with ⟨mo, mb, rom, rb, rbk, ram, rab, ren, rt, lrt, lat⟩
  obtain rfl : mb = MemoryBankType.mbc3 := hm
  have e : ∀ v, Cart.WriteROM ⟨mo, .mbc3, rom, rb, rbk, ram, rab, ren, rt, lrt, lat⟩
      address v =
      (if v = 0x1 then ⟨mo, .mbc3, rom, rb, rbk, ram, rab, ren, rt, lrt, false⟩
       else if v = 0x0 then ⟨mo, .mbc3, rom, rb, rbk, ram, rab, ren, lrt, lrt, true⟩
       else ⟨mo, .mbc3, rom, rb, rbk, ram, rab, ren, rt, lrt, lat⟩) := by
    intro v
    simp only [Cart.WriteROM]
    rw [if_neg (by omega), if_neg (by omega), if_neg (by omega), if_pos h2]
  refine ⟨?_, ?_, ?_, ?_⟩
  · rw [e]; norm_num
  · rw [e]; norm_num
  · rw [e]; norm_num
  · intro v hv0 hv1
    rw [e, if_neg hv1, if_neg hv0]

/-- C5 witness: the latch behaviour at a concrete cartridge and address. -/
theorem C5_mbc3_rtc_latch_witness :
    (Cart.WriteROM { memoryBank := .mbc3, romBank := 1 } 0x6000 0x00).latched = true ∧
    (Cart.WriteROM { memoryBank := .mbc3, romBank := 1 } 0x6000 0x01).latched = false := by
  have h := C5_mbc3_rtc_latch { memoryBank := .mbc3, romBank := 1 } 0x6000
    rfl (by norm_num) (by norm_num)
  exact ⟨by rw [h.2.1], by rw [h.1]⟩

/-! ## Claim C7: MBC5 ROM bank writes -/

/-- A concrete MBC5 cartridge used for the C7 counterexample. -/
def mbc5Cart : Cart := { memoryBank := .mbc5, romBank := 1 }

/-- C7 counterexample: the claim says every write of byte `V` to every address
in the whole window 0x2000–0x3FFF sets the low 8 bits of the ROM bank to `V`.
At address 0x3000 with `V = 0x42` the code instead sets bit 8 from `V`'s bit 0
and leaves the low 8 bits unchanged: the resulting bank is 1, whose low 8 bits
are 1, not 0x42. -/
theorem C7_counterexample :
    (mbc5Cart.WriteROM 0x3000 0x42).romBank &&& 0xFF = 1 ∧ (1 : Nat) ≠ 0x42 := by
  constructor
  · decide
  · decide

/-- C7 amended: for an MBC5 cartridge, a write of byte `V` to 0x2000–0x2FFF
sets the low 8 bits of the ROM bank to `V`, keeping bit 8
(`romBank' = (romBank &&& 0x100) ||| V`); a write to 0x3000–0x3FFF instead
sets bit 8 of the ROM bank from bit 0 of `V`, keeping the low 8 bits
(`romBank' = (romBank &&& 0xFF) ||| ((V &&& 1) <<< 8)`). -/
theorem C7_mbc5_rombank_amended (c : Cart) (address value : Nat)
    (hm : c.memoryBank = .mbc5) :
    (0x2000 ≤ address → address < 0x3000 →
      (c.WriteROM address value).romBank = (c.romBank &&& 0x100) ||| value) ∧
    (0x3000 ≤ address → address < 0x4000 →
      (c.WriteROM address value).romBank =
        (c.romBank &&& 0xFF) ||| ((value &&& 0x01) <<< 8)) := by
  rcases c with ⟨mo, mb, rom, rb, rbk, ram, rab, ren, rt, lrt, lat⟩
  obtain rfl : mb = MemoryBankType.mbc5 := hm
  constructor
  · intro ha1 ha2
    simp only [Cart.WriteROM]
    rw [if_neg (by omega), if_pos (by omega)]
  · intro ha1 ha2
    simp only [Cart.WriteROM]
    rw [if_neg (by omega), if_neg (by omega), if_pos (by omega)]

/-- C7 witness: the amended behaviour at concrete inputs: a write of 0x42 to
0x2500 sets the low 8 bits, a write of 0x01 to 0x3000 sets bit 8. -/
theorem C7_mbc5_rombank_amended_witness :
    (mbc5Cart.WriteROM 0x2500 0x42).romBank = 0x42 ∧
    (mbc5Cart.WriteROM 0x3000 0x01).romBank = 0x101 := by
  constructor
  · rw [(C7_mbc5_rombank_amended mbc5Cart 0x2500 0x42 rfl).1 (by norm_num) (by norm_num)]
    decide
  · rw [(C7_mbc5_rombank_amended mbc5Cart 0x3000 0x01 rfl).2 (by norm_num) (by norm_num)]
    decide

/-! ## Claim C4: MBC1/MBC2 bank-zero aliasing -/

/-- C4: ROM-bank writes whose raw combined result would select physical
bank 0 alias to bank+1.  For MBC1, both the low-5-bits write
(0x2000–0x3FFF) and, in ROM-banking mode, the high-bits write (0x4000–0x5FFF)
store `raw + 1` whenever the combined raw value is 0, 0x20, 0x40 or 0x60.
For MBC2, a ROM-bank write (address bit 8 set, 0x2000–0x3FFF) of raw value 0
stores bank 1.  In all three cases the stored bank is nonzero. -/
theorem C4_bank_zero_alias :
    (∀ (c : Cart) (address value : Nat), c.memoryBank = .mbc1 →
      0x2000 ≤ address → address < 0x4000 →
      ((c.romBank &&& 0xe0) ||| (value &&& 0x1f) = 0x00 ∨
       (c.romBank &&& 0xe0) ||| (value &&& 0x1f) = 0x20 ∨
       (c.romBank &&& 0xe0) ||| (value &&& 0x1f) = 0x40 ∨
       (c.romBank &&& 0xe0) ||| (value &&& 0x1f) = 0x60) →
      (c.WriteROM address value).romBank =
        ((c.romBank &&& 0xe0) ||| (value &&& 0x1f)) + 1 ∧
      (c.WriteROM address value).romBank ≠ 0) ∧
    (∀ (c : Cart) (address value : Nat), c.memoryBank = .mbc1 →
      c.romBanking = true →
      0x4000 ≤ address → address < 0x6000 →
      ((c.romBank &&& 0x1F) ||| (value &&& 0xe0) = 0x00 ∨
       (c.romBank &&& 0x1F) ||| (value &&& 0xe0) = 0x20 ∨
       (c.romBank &&& 0x1F) ||| (value &&& 0xe0) = 0x40 ∨
       (c.romBank &&& 0x1F) ||| (value &&& 0xe0) = 0x60) →
      (c.WriteROM address value).romBank =
        ((c.romBank &&& 0x1F) ||| (value &&& 0xe0)) + 1 ∧
      (c.WriteROM address value).romBank ≠ 0) ∧
    (∀ (c : Cart) (address value : Nat), c.memoryBank = .mbc2 →
      0x2000 ≤ address → address < 0x4000 → address &&& 0x100 = 0x100 →
      value &&& 0xF = 0 →
      (c.WriteROM address value).romBank = 1) := by
  refine ⟨?_, ?_, ?_⟩
  · intro c address value hm ha1 ha2 hraw
    rcases c with ⟨mo, mb, rom, rb, rbk, ram, rab, ren, rt, lrt, lat⟩
    obtain rfl : mb = MemoryBankType.mbc1 := hm
    simp only [Cart.WriteROM]
    rw [if_neg (by omega), if_pos (by omega)]
    simp only at hraw ⊢
    rw [updateRomBankIfZero, if_pos hraw]
    omega
  · intro c address value hm hbk ha1 ha2 hraw
    rcases c with ⟨mo, mb, rom, rb, rbk, ram, rab, ren, rt, lrt, lat⟩
    obtain rfl : mb = MemoryBankType.mbc1 := hm
    obtain rfl : rbk = true := hbk
    simp only [Cart.WriteROM]
    rw [if_neg (by omega), if_neg (by omega), if_pos (by omega), if_pos (by trivial)]
    simp only at hraw ⊢
    rw [updateRomBankIfZero, if_pos hraw]
    omega
  · intro c address value hm ha1 ha2 hbit hv
    rcases c with ⟨mo, mb, rom, rb, rbk, ram, rab, ren, rt, lrt, lat⟩
    obtain rfl : mb = MemoryBankType.mbc2 := hm
    simp only [Cart.WriteROM]
    rw [if_neg (by omega), if_pos (by omega), if_pos hbit]
    simp only [hv]
    rw [updateRomBankIfZero]
    norm_num

/-- C4 witness: concrete instances of all three aliasing rules.  An MBC1 cart
with bank 0x20 written with raw low bits 0 combines to 0x20 and stores 0x21;
an MBC1 cart in ROM-banking mode with bank 0 written with high bits 0x40
combines to 0x40 and stores 0x41; an MBC2 cart written with 0 at an address
with bit 8 set stores bank 1. -/
theorem C4_bank_zero_alias_witness :
    (Cart.WriteROM { memoryBank := .mbc1, romBank := 0x20 } 0x2000 0x00).romBank = 0x21 ∧
    (Cart.WriteROM { memoryBank := .mbc1, romBank := 0x00, romBanking := true }
      0x4000 0x40).romBank = 0x41 ∧
    (Cart.WriteROM { memoryBank := .mbc2, romBank := 1 } 0x2100 0x00).romBank = 1 := by
  refine ⟨?_, ?_, ?_⟩
  · rw [(C4_bank_zero_alias.1 { memoryBank := .mbc1, romBank := 0x20 } 0x2000 0x00
      rfl (by norm_num) (by norm_num) (by decide)).1]
    decide
  · rw [(C4_bank_zero_alias.2.1 { memoryBank := .mbc1, romBank := 0x00, romBanking := true }
      0x4000 0x40 rfl rfl (by norm_num) (by norm_num) (by decide)).1]
    decide
  · rw [C4_bank_zero_alias.2.2 { memoryBank := .mbc2, romBank := 1 } 0x2100 0x00
      rfl (by norm_num) (by norm_num) (by decide) (by decide)]

/-! ## Claim C3: RAM enable / write / read round trips -/

/-- A concrete MBC2 cartridge used for the C3 counterexample. -/
def mbc2Cart : Cart := { memoryBank := .mbc2, romBank := 1 }

/-- C3 counterexample: the claim says that for every supported MBC type and
every byte `V`, writing `V` to an enabled RAM address and reading it back
returns `V`.  On MBC2 the write stores only the low nibble (`value & 0xF`):
after enabling RAM and writing 0xFF to 0xA000, reading 0xA000 returns 0x0F,
not 0xFF. -/
theorem C3_counterexample :
    (((mbc2Cart.WriteROM 0x0000 0x0A).WriteRAM 0xA000 0xFF).bind
      fun c2 => c2.Read 0xA000) = some 0x0F ∧ (0x0F : Nat) ≠ 0xFF := by
  constructor
  · decide
  · decide

/-- C3 amended: for each supported MBC type (with the RAM bank in its
reachable range, and — for MBC2 — the control addresses having bit 8 clear):
writing 0x0A below 0x2000 enables RAM; a subsequent RAM write of byte `V`
succeeds, and reading the same address returns `V` — except on MBC2, whose
4-bit RAM stores and returns `V &&& 0xF`; writing 0x00 below 0x2000 disables
RAM, after which the stored value still reads back unchanged while further
writes are dropped (the cartridge is left unchanged) until re-enabled. -/
theorem C3_ram_roundtrip_amended :
    (∀ (c : Cart) (eA A V dA W : Nat), c.memoryBank = .mbc1 → c.ramBank < 4 →
      eA < 0x2000 → 0xA000 ≤ A → A ≤ 0xBFFF → dA < 0x2000 →
      (c.WriteROM eA 0x0A).ramEnabled = true ∧
      ∃ c2, (c.WriteROM eA 0x0A).WriteRAM A V = some c2 ∧
        c2.Read A = some V ∧
        (c2.WriteROM dA 0x00).ramEnabled = false ∧
        (c2.WriteROM dA 0x00).Read A = some V ∧
        (c2.WriteROM dA 0x00).WriteRAM A W = some (c2.WriteROM dA 0x00)) ∧
    (∀ (c : Cart) (eA A V dA W : Nat), c.memoryBank = .mbc2 →
      eA < 0x2000 → eA &&& 0x100 = 0 → 0xA000 ≤ A → A ≤ 0xBFFF →
      dA < 0x2000 → dA &&& 0x100 = 0 →
      (c.WriteROM eA 0x0A).ramEnabled = true ∧
      ∃ c2, (c.WriteROM eA 0x0A).WriteRAM A V = some c2 ∧
        c2.Read A = some (V &&& 0xF) ∧
        (c2.WriteROM dA 0x00).ramEnabled = false ∧
        (c2.WriteROM dA 0x00).Read A = some (V &&& 0xF) ∧
        (c2.WriteROM dA 0x00).WriteRAM A W = some (c2.WriteROM dA 0x00)) ∧
    (∀ (c : Cart) (eA A V dA W : Nat), c.memoryBank = .mbc3 → c.ramBank < 4 →
      eA < 0x2000 → 0xA000 ≤ A → A ≤ 0xBFFF → dA < 0x2000 →
      (c.WriteROM eA 0x0A).ramEnabled = true ∧
      ∃ c2, (c.WriteROM eA 0x0A).WriteRAM A V = some c2 ∧
        c2.Read A = some V ∧
        (c2.WriteROM dA 0x00).ramEnabled = false ∧
        (c2.WriteROM dA 0x00).Read A = some V ∧
        (c2.WriteROM dA 0x00).WriteRAM A W = some (c2.WriteROM dA 0x00)) ∧
    (∀ (c : Cart) (eA A V dA W : Nat), c.memoryBank = .mbc5 → c.ramBank < 0x10 →
      eA < 0x2000 → 0xA000 ≤ A → A ≤ 0xBFFF → dA < 0x2000 →
      (c.WriteROM eA 0x0A).ramEnabled = true ∧
      ∃ c2, (c.WriteROM eA 0x0A).WriteRAM A V = some c2 ∧
        c2.Read A = some V ∧
        (c2.WriteROM dA 0x00).ramEnabled = false ∧
        (c2.WriteROM dA 0x00).Read A = some V ∧
        (c2.WriteROM dA 0x00).WriteRAM A W = some (c2.WriteROM dA 0x00)) := by
  refine ⟨?_, ?_, ?_, ?_⟩
  · -- MBC1
    intro c eA A V dA W hm hbank heA hA1 hA2 hdA
    rcases c with ⟨mo, mb, rom, rb, rbk, ram, rab, ren, rt, lrt, lat⟩
    obtain rfl : mb = MemoryBankType.mbc1 := hm
    simp only at hbank
    have hu : u16sub A 0xA000 = A - 0xA000 := u16sub_eq_sub A 0xA000 (by omega) (by omega)
    have hidx : 0x2000 * rab + u16sub A 0xA000 < 0x20000 := by rw [hu]; omega
    have h1 : Cart.WriteROM ⟨mo, .mbc1, rom, rb, rbk, ram, rab, ren, rt, lrt, lat⟩ eA 0x0A
        = ⟨mo, .mbc1, rom, rb, rbk, ram, rab, true, rt, lrt, lat⟩ := by
      simp only [Cart.WriteROM]
      rw [if_pos heA, if_pos (by decide)]
    rw [h1]
    refine ⟨rfl, ⟨mo, .mbc1, rom, rb, rbk,
      Function.update ram (0x2000 * rab + u16sub A 0xA000) V, rab, true, rt, lrt, lat⟩,
      ?_, ?_, ?_, ?_, ?_⟩
    · simp only [Cart.WriteRAM, ramSet, if_pos hidx]
      rfl
    · simp only [Cart.Read]
      rw [if_neg (by omega), if_neg (by omega)]
      simp only [ramGet, if_pos hidx, Function.update_same]
    · have h3 : Cart.WriteROM ⟨mo, .mbc1, rom, rb, rbk,
          Function.update ram (0x2000 * rab + u16sub A 0xA000) V,
          rab, true, rt, lrt, lat⟩ dA 0x00
          = ⟨mo, .mbc1, rom, rb, rbk,
            Function.update ram (0x2000 * rab + u16sub A 0xA000) V,
            rab, false, rt, lrt, lat⟩ := by
        simp only [Cart.WriteROM]
        rw [if_pos hdA, if_neg (by decide), if_pos (by decide)]
      rw [h3]
    · have h3 : Cart.WriteROM ⟨mo, .mbc1, rom, rb, rbk,
          Function.update ram (0x2000 * rab + u16sub A 0xA000) V,
          rab, true, rt, lrt, lat⟩ dA 0x00
          = ⟨mo, .mbc1, rom, rb, rbk,
            Function.update ram (0x2000 * rab + u16sub A 0xA000) V,
            rab, false, rt, lrt, lat⟩ := by
        simp only [Cart.WriteROM]
        rw [if_pos hdA, if_neg (by decide), if_pos (by decide)]
      rw [h3]
      simp only [Cart.Read]
      rw [if_neg (by omega), if_neg (by omega)]
      simp only [ramGet, if_pos hidx, Function.update_same]
    · have h3 : Cart.WriteROM ⟨mo, .mbc1, rom, rb, rbk,
          Function.update ram (0x2000 * rab + u16sub A 0xA000) V,
          rab, true, rt, lrt, lat⟩ dA 0x00
          = ⟨mo, .mbc1, rom, rb, rbk,
            Function.update ram (0x2000 * rab + u16sub A 0xA000) V,
            rab, false, rt, lrt, lat⟩ := by
        simp only [Cart.WriteROM]
        rw [if_pos hdA, if_neg (by decide), if_pos (by decide)]
      rw [h3]
      simp only [Cart.WriteRAM]
      rw [if_neg (by decide)]
  · -- MBC2
    intro c eA A V dA W hm heA heA8 hA1 hA2 hdA hdA8
    rcases c with ⟨mo, mb, rom, rb, rbk, ram, rab, ren, rt, lrt, lat⟩
    obtain rfl : mb = MemoryBankType.mbc2 := hm
    have hu : u16sub A 0xA000 = A - 0xA000 := u16sub_eq_sub A 0xA000 (by omega) (by omega)
    have hidx : u16sub A 0xA000 < 0x20000 := by rw [hu]; omega
    have h1 : Cart.WriteROM ⟨mo, .mbc2, rom, rb, rbk, ram, rab, ren, rt, lrt, lat⟩ eA 0x0A
        = ⟨mo, .mbc2, rom, rb, rbk, ram, rab, true, rt, lrt, lat⟩ := by
      simp only [Cart.WriteROM]
      rw [if_pos heA, if_pos heA8, if_pos (by decide)]
    rw [h1]
    refine ⟨rfl, ⟨mo, .mbc2, rom, rb, rbk,
      Function.update ram (u16sub A 0xA000) (V &&& 0xF), rab, true, rt, lrt, lat⟩,
      ?_, ?_, ?_, ?_, ?_⟩
    · simp only [Cart.WriteRAM, ramSet, if_pos hidx]
      rfl
    · simp only [Cart.Read]
      rw [if_neg (by omega), if_neg (by omega)]
      simp only [ramGet, if_pos hidx, Function.update_same]
    · have h3 : Cart.WriteROM ⟨mo, .mbc2, rom, rb, rbk,
          Function.update ram (u16sub A 0xA000) (V &&& 0xF),
          rab, true, rt, lrt, lat⟩ dA 0x00
          = ⟨mo, .mbc2, rom, rb, rbk,
            Function.update ram (u16sub A 0xA000) (V &&& 0xF),
            rab, false, rt, lrt, lat⟩ := by
        simp only [Cart.WriteROM]
        rw [if_pos hdA, if_pos hdA8, if_neg (by decide), if_pos (by decide)]
      rw [h3]
    · have h3 : Cart.WriteROM ⟨mo, .mbc2, rom, rb, rbk,
          Function.update ram (u16sub A 0xA000) (V &&& 0xF),
          rab, true, rt, lrt, lat⟩ dA 0x00
          = ⟨mo, .mbc2, rom, rb, rbk,
            Function.update ram (u16sub A 0xA000) (V &&& 0xF),
            rab, false, rt, lrt, lat⟩ := by
        simp only [Cart.WriteROM]
        rw [if_pos hdA, if_pos hdA8, if_neg (by decide), if_pos (by decide)]
      rw [h3]
      simp only [Cart.Read]
      rw [if_neg (by omega), if_neg (by omega)]
      simp only [ramGet, if_pos hidx, Function.update_same]
    · have h3 : Cart.WriteROM ⟨mo, .mbc2, rom, rb, rbk,
          Function.update ram (u16sub A 0xA000) (V &&& 0xF),
          rab, true, rt, lrt, lat⟩ dA 0x00
          = ⟨mo, .mbc2, rom, rb, rbk,
            Function.update ram (u16sub A 0xA000) (V &&& 0xF),
            rab, false, rt, lrt, lat⟩ := by
        simp only [Cart.WriteROM]
        rw [if_pos hdA, if_pos hdA8, if_neg (by decide), if_pos (by decide)]
      rw [h3]
      simp only [Cart.WriteRAM]
      rw [if_neg (by decide)]
  · -- MBC3
    intro c eA A V dA W hm hbank heA hA1 hA2 hdA
    rcases c with ⟨mo, mb, rom, rb, rbk, ram, rab, ren, rt, lrt, lat⟩
    obtain rfl : mb = MemoryBankType.mbc3 := hm
    simp only at hbank
    have hu : u16sub A 0xA000 = A - 0xA000 := u16sub_eq_sub A 0xA000 (by omega) (by omega)
    have hidx : 0x2000 * rab + u16sub A 0xA000 < 0x20000 := by rw [hu]; omega
    have h1 : Cart.WriteROM ⟨mo, .mbc3, rom, rb, rbk, ram, rab, ren, rt, lrt, lat⟩ eA 0x0A
        = ⟨mo, .mbc3, rom, rb, rbk, ram, rab, true, rt, lrt, lat⟩ := by
      simp only [Cart.WriteROM]
      rw [if_pos heA]
      simp
    rw [h1]
    refine ⟨rfl, ⟨mo, .mbc3, rom, rb, rbk,
      Function.update ram (0x2000 * rab + u16sub A 0xA000) V, rab, true, rt, lrt, lat⟩,
      ?_, ?_, ?_, ?_, ?_⟩
    · simp only [Cart.WriteRAM, ramSet, if_neg (show ¬(0x4 ≤ rab) by omega),
        if_pos hidx]
      rfl
    · simp only [Cart.Read]
      rw [if_neg (by omega), if_neg (by omega), if_neg (by omega)]
      simp only [ramGet, if_pos hidx, Function.update_same]
    · have h3 : Cart.WriteROM ⟨mo, .mbc3, rom, rb, rbk,
          Function.update ram (0x2000 * rab + u16sub A 0xA000) V,
          rab, true, rt, lrt, lat⟩ dA 0x00
          = ⟨mo, .mbc3, rom, rb, rbk,
            Function.update ram (0x2000 * rab + u16sub A 0xA000) V,
            rab, false, rt, lrt, lat⟩ := by
        simp only [Cart.WriteROM]
        rw [if_pos hdA]
        simp
      rw [h3]
    · have h3 : Cart.WriteROM ⟨mo, .mbc3, rom, rb, rbk,
          Function.update ram (0x2000 * rab + u16sub A 0xA000) V,
          rab, true, rt, lrt, lat⟩ dA 0x00
          = ⟨mo, .mbc3, rom, rb, rbk,
            Function.update ram (0x2000 * rab + u16sub A 0xA000) V,
            rab, false, rt, lrt, lat⟩ := by
        simp only [Cart.WriteROM]
        rw [if_pos hdA]
        simp
      rw [h3]
      simp only [Cart.Read]
      rw [if_neg (by omega), if_neg (by omega), if_neg (by omega)]
      simp only [ramGet, if_pos hidx, Function.update_same]
    · have h3 : Cart.WriteROM ⟨mo, .mbc3, rom, rb, rbk,
          Function.update ram (0x2000 * rab + u16sub A 0xA000) V,
          rab, true, rt, lrt, lat⟩ dA 0x00
          = ⟨mo, .mbc3, rom, rb, rbk,
            Function.update ram (0x2000 * rab + u16sub A 0xA000) V,
            rab, false, rt, lrt, lat⟩ := by
        simp only [Cart.WriteROM]
        rw [if_pos hdA]
        simp
      rw [h3]
      simp only [Cart.WriteRAM]
      rw [if_neg (by decide)]
  · -- MBC5
    intro c eA A V dA W hm hbank heA hA1 hA2 hdA
    rcases c with ⟨mo, mb, rom, rb, rbk, ram, rab, ren, rt, lrt, lat⟩
    obtain rfl : mb = MemoryBankType.mbc5 := hm
    simp only at hbank
    have hu : u16sub A 0xA000 = A - 0xA000 := u16sub_eq_sub A 0xA000 (by omega) (by omega)
    have hidx : 0x2000 * rab + u16sub A 0xA000 < 0x20000 := by rw [hu]; omega
    have h1 : Cart.WriteROM ⟨mo, .mbc5, rom, rb, rbk, ram, rab, ren, rt, lrt, lat⟩ eA 0x0A
        = ⟨mo, .mbc5, rom, rb, rbk, ram, rab, true, rt, lrt, lat⟩ := by
      simp only [Cart.WriteROM]
      rw [if_pos heA, if_pos (by decide)]
    rw [h1]
    refine ⟨rfl, ⟨mo, .mbc5, rom, rb, rbk,
      Function.update ram (0x2000 * rab + u16sub A 0xA000) V, rab, true, rt, lrt, lat⟩,
      ?_, ?_, ?_, ?_, ?_⟩
    · simp only [Cart.WriteRAM, ramSet, if_pos hidx]
      rfl
    · simp only [Cart.Read]
      rw [if_neg (by omega), if_neg (by omega)]
      simp only [ramGet, if_pos hidx, Function.update_same]
    · have h3 : Cart.WriteROM ⟨mo, .mbc5, rom, rb, rbk,
          Function.update ram (0x2000 * rab + u16sub A 0xA000) V,
          rab, true, rt, lrt, lat⟩ dA 0x00
          = ⟨mo, .mbc5, rom, rb, rbk,
            Function.update ram (0x2000 * rab + u16sub A 0xA000) V,
            rab, false, rt, lrt, lat⟩ := by
        simp only [Cart.WriteROM]
        rw [if_pos hdA, if_neg (by decide), if_pos (by decide)]
      rw [h3]
    · have h3 : Cart.WriteROM ⟨mo, .mbc5, rom, rb, rbk,
          Function.update ram (0x2000 * rab + u16sub A 0xA000) V,
          rab, true, rt, lrt, lat⟩ dA 0x00
          = ⟨mo, .mbc5, rom, rb, rbk,
            Function.update ram (0x2000 * rab + u16sub A 0xA000) V,
            rab, false, rt, lrt, lat⟩ := by
        simp only [Cart.WriteROM]
        rw [if_pos hdA, if_neg (by decide), if_pos (by decide)]
      rw [h3]
      simp only [Cart.Read]
      rw [if_neg (by omega), if_neg (by omega)]
      simp only [ramGet, if_pos hidx, Function.update_same]
    · have h3 : Cart.WriteROM ⟨mo, .mbc5, rom, rb, rbk,
          Function.update ram (0x2000 * rab + u16sub A 0xA000) V,
          rab, true, rt, lrt, lat⟩ dA 0x00
          = ⟨mo, .mbc5, rom, rb, rbk,
            Function.update ram (0x2000 * rab + u16sub A 0xA000) V,
            rab, false, rt, lrt, lat⟩ := by
        simp only [Cart.WriteROM]
        rw [if_pos hdA, if_neg (by decide), if_pos (by decide)]
      rw [h3]
      simp only [Cart.WriteRAM]
      rw [if_neg (by decide)]

/-- C3 witness: the round trip at concrete inputs: an MBC1 cartridge, RAM
enabled by a write of 0x0A to 0x1000; 0x42 written to 0xA010 reads back as
0x42; after a disable write of 0x00 the value still reads back and a further
write of 0x99 leaves the cartridge unchanged. -/
theorem C3_ram_roundtrip_amended_witness :
    ∃ c2, (Cart.WriteROM { memoryBank := .mbc1, romBank := 1 } 0x1000 0x0A).WriteRAM
        0xA010 0x42 = some c2 ∧ c2.Read 0xA010 = some 0x42 ∧
      (c2.WriteROM 0x1000 0x00).Read 0xA010 = some 0x42 := by
  obtain ⟨he, c2, hw, hr, hd, hr2, hw2⟩ :=
    C3_ram_roundtrip_amended.1 { memoryBank := .mbc1, romBank := 1 } 0x1000 0xA010
      0x42 0x1000 0x99 rfl (by norm_num) (by norm_num) (by norm_num) (by norm_num)
      (by norm_num)
  exact ⟨c2, hw, hr, hr2⟩

/-! ## Claim C8: MBC3 RAM/RTC bank selection bounds -/

/-- A concrete MBC3 cartridge with RAM enabled, used for C8. -/
def mbc3Cart : Cart := { memoryBank := .mbc3, romBank := 1, ramEnabled := true }

/-- C8 counterexample: the claim says every bank-select byte, including
0x10–0xFF, leads to in-bounds accesses.  The code stores the whole written
byte as the RAM bank; after a bank-select write of 0x10, a read or write of
0xA000 indexes the 16-byte RTC array at index 0x10, out of bounds (a Go
runtime panic, modelled as `none`). -/
theorem C8_counterexample :
    (mbc3Cart.WriteROM 0x4000 0x10).ramBank = 0x10 ∧
    (mbc3Cart.WriteROM 0x4000 0x10).Read 0xA000 = none ∧
    (mbc3Cart.WriteROM 0x4000 0x10).WriteRAM 0xA000 0x55 = none := by
  exact ⟨rfl, rfl, rfl⟩

/-- C8 amended: for an MBC3 cartridge, a bank-select write to 0x4000–0x5FFF
stores the written byte as the RAM bank; for written bytes below 0x10 every
subsequent access to 0xA000–0xBFFF is total and in bounds — inside the 128KB
banked RAM when the byte is below 4, inside the 16-byte RTC register array
when it is 4–0xF.  (Bytes 0x10–0xFF index the RTC array out of bounds, see
the counterexample.) -/
theorem C8_mbc3_bank_access_amended (c : Cart) (a v A W : Nat)
    (hm : c.memoryBank = .mbc3) (ha1 : 0x4000 ≤ a) (ha2 : a < 0x6000)
    (hv : v < 0x10) (hA1 : 0xA000 ≤ A) (hA2 : A ≤ 0xBFFF)
    (hren : c.ramEnabled = true) :
    (c.WriteROM a v).ramBank = v ∧
    ((c.WriteROM a v).Read A).isSome = true ∧
    ((c.WriteROM a v).WriteRAM A W).isSome = true := by
  rcases c with ⟨mo, mb, rom, rb, rbk, ram, rab, ren, rt, lrt, lat⟩
  obtain rfl : mb = MemoryBankType.mbc3 := hm
  obtain rfl : ren = true := hren
  have hw : Cart.WriteROM ⟨mo, .mbc3, rom, rb, rbk, ram, rab, true, rt, lrt, lat⟩ a v
      = ⟨mo, .mbc3, rom, rb, rbk, ram, v, true, rt, lrt, lat⟩ := by
    simp only [Cart.WriteROM]
    rw [if_neg (by omega), if_neg (by omega), if_pos ha2]
  rw [hw]
  have hu : u16sub A 0xA000 = A - 0xA000 := u16sub_eq_sub A 0xA000 (by omega) (by omega)
  refine ⟨rfl, ?_, ?_⟩
  · simp only [Cart.Read]
    rw [if_neg (by omega), if_neg (by omega)]
    by_cases h4 : 0x4 ≤ v
    · rw [if_pos h4]
      by_cases hl : lat = true
      · rw [if_pos hl]
        simp [rtcGet, hv]
      · rw [if_neg hl]
        simp [rtcGet, hv]
    · rw [if_neg h4]
      have hb : 0x2000 * v + u16sub A 0xA000 < 0x20000 := by rw [hu]; omega
      simp [ramGet, hb]
  · simp only [Cart.WriteRAM]
    by_cases h4 : 0x4 ≤ v
    · simp [rtcSet, h4, hv]
    · have hb : 0x2000 * v + u16sub A 0xA000 < 0x20000 := by rw [hu]; omega
      simp [ramSet, h4, hb]

/-- C8 witness: bank byte 0x05 selects an RTC register; reading and writing
0xA000 succeed. -/
theorem C8_mbc3_bank_access_amended_witness :
    ((mbc3Cart.WriteROM 0x4000 0x05).Read 0xA000).isSome = true ∧
    ((mbc3Cart.WriteROM 0x4000 0x05).WriteRAM 0xA000 0x07).isSome = true := by
  have h := C8_mbc3_bank_access_amended mbc3Cart 0x4000 0x05 0xA000 0x07 rfl
    (by norm_num) (by norm_num) (by norm_num) (by norm_num) (by norm_num) rfl
  exact ⟨h.2.1, h.2.2⟩

/-! ## Claim C6: engine construction and ROM-length validation -/

/-- C6 counterexample: the claim says every ROM shorter than 0x150 bytes makes
construction fail with an explicit load error (neither constructing an engine
nor aborting), and that length at least 0x150 is required for success.  The
code performs no length validation and has no error result: a 0x14F-byte ROM
(shorter than 0x150) constructs a cartridge successfully, while a 0x143-byte
ROM aborts with an out-of-range header read (`none`, the Go runtime panic) —
in neither case is a load error returned. -/
theorem C6_counterexample :
    (NewCart (List.replicate 0x14F 0)).isSome = true ∧
    NewCart (List.replicate 0x143 0) = none := by
  exact ⟨rfl, rfl⟩

/-- C6 amended: construction succeeds exactly when the ROM buffer has length
at least 0x148 (enough for the two header reads at 0x143 and 0x147; no
0x150-byte minimum is enforced and no load error is ever returned — a shorter
buffer aborts on the out-of-range header read).  On success, byte 0x143
selects the mode (0x80 → DMG+CGB, 0xC0 → CGB-only, else DMG-only) and byte
0x147 the memory bank controller. -/
theorem C6_construction_amended (rom : List Nat) :
    ((NewCart rom).isSome ↔ 0x148 ≤ rom.length) ∧
    (∀ b143 mbcFlag c, rom.get? 0x143 = some b143 → rom.get? 0x147 = some mbcFlag →
      NewCart rom = some c →
      c.mode = (if b143 = 0x80 then DMG ||| CGB
                else if b143 = 0xC0 then CGB else DMG) ∧
      c.rom = rom ∧ c.romBank = 1 ∧
      c.memoryBank =
        (if mbcFlag = 0x00 ∨ mbcFlag = 0x08 ∨ mbcFlag = 0x09 ∨
            mbcFlag = 0x0B ∨ mbcFlag = 0x0C ∨ mbcFlag = 0x0D then .romOnly
         else if mbcFlag ≤ 0x03 then .mbc1
         else if mbcFlag ≤ 0x06 then .mbc2
         else if mbcFlag ≤ 0x13 then .mbc3
         else if mbcFlag < 0x17 then .mbc1
         else if mbcFlag < 0x1F then .mbc5
         else .mbc1)) := by
  constructor
  · rcases h143 : rom.get? 0x143 with _ | b143
    · have hlen := List.get?_eq_none.mp h143
      simp only [NewCart, h143]
      simp
      omega
    · have h1 : 0x143 < rom.length := by
        by_contra h
        rw [List.get?_eq_none.mpr (by omega)] at h143
        cases h143
      rcases h147 : rom.get? 0x147 with _ | mf
      · have hlen := List.get?_eq_none.mp h147
        simp only [NewCart, h143, h147]
        simp
        omega
      · have h2 : 0x147 < rom.length := by
          by_contra h
          rw [List.get?_eq_none.mpr (by omega)] at h147
          cases h147
        simp only [NewCart, h143, h147]
        simp
        omega
  · intro b143 mbcFlag c h143 h147 hc
    simp only [NewCart, h143, h147] at hc
    obtain rfl := (Option.some.injEq _ _).mp hc.symm
    exact ⟨rfl, rfl, rfl, rfl⟩

/-- C6 witness: a 0x148-byte all-zero ROM constructs successfully, with
header byte 0x143 = 0 giving DMG-only mode. -/
theorem C6_construction_amended_witness :
    (NewCart (List.replicate 0x148 0)).isSome = true ∧
    ∀ c, NewCart (List.replicate 0x148 0) = some c → c.mode = DMG := by
  have h := C6_construction_amended (List.replicate 0x148 0)
  constructor
  · have hl : 0x148 ≤ (List.replicate 0x148 (0 : Nat)).length := by
      rw [List.length_replicate]
    exact h.1.mpr hl
  · intro c hc
    have hm := (h.2 0 0 c (by rfl) (by rfl) hc).1
    rw [hm]
    decide

/-! ## CPU register file (`Register`, `CPU` — the register/flag part) -/

/-- The `Register` struct: a 16-bit register pair with an optional mask
(only used for AF, whose low nibble cannot be set). -/
structure Register where
  Value : Nat
  Mask : Nat

/-- `Register.updateMask`: mask the value if a mask is set on this
register. -/
def Register.updateMask (reg : Register) : Register :=
  if reg.Mask ≠ 0 then { reg with Value := reg.Value &&& reg.Mask } else reg

/-- `Register.Hi`: the higher byte of the register (`byte(Value >> 8)`). -/
def Register.Hi (reg : Register) : Nat := (reg.Value >>> 8) % 0x100

/-- `Register.Lo`: the lower byte of the register (`byte(Value & 0xFF)`). -/
def Register.Lo (reg : Register) : Nat := reg.Value &&& 0xFF

/-- `Register.HiLo`: the 2-byte value of the register. -/
def Register.HiLo (reg : Register) : Nat := reg.Value

/-- `Register.SetHi` sets the higher byte (`val` has Go type `byte`;
the conversions `uint16(val)<<8 | uint16(Value)&0xFF` are made explicit). -/
def Register.SetHi (reg : Register) (val : Nat) : Register :=
  Register.updateMask
    { reg with Value := ((val % 0x100) <<< 8) ||| (reg.Value &&& 0xFF) }

/-- `Register.SetLo` sets the lower byte. -/
def Register.SetLo (reg : Register) (val : Nat) : Register :=
  Register.updateMask
    { reg with Value := (val % 0x100) ||| (reg.Value &&& 0xFF00) }

/-- `Register.Set` sets the 16-bit value (`val` has Go type `uint16`). -/
def Register.Set (reg : Register) (val : Nat) : Register :=
  Register.updateMask { reg with Value := val % 0x10000 }

/-- The `CPU` struct: register pairs, program counter, stack pointer and the
divider accumulator. -/
structure CPU where
  AF : Register := ⟨0, 0⟩
  BC : Register := ⟨0, 0⟩
  DE : Register := ⟨0, 0⟩
  HL : Register := ⟨0, 0⟩
  PC : Nat := 0
  SP : Register := ⟨0, 0⟩
  Divider : Int := 0

/-- `CPU.Init` sets the registers to their initial values, starting from the
zero-valued `CPU{}` (so every `Set` runs with `Mask = 0`), and only then
installs the AF mask `0xFFF0`. -/
def CPU.Init (cgb : Bool) : CPU :=
  let cpu : CPU := { PC := 0x100 }
  let cpu := { cpu with AF := cpu.AF.Set (if cgb then 0x1180 else 0x01B0) }
  let cpu := { cpu with BC := cpu.BC.Set 0x0000 }
  let cpu := { cpu with DE := cpu.DE.Set 0xFF56 }
  let cpu := { cpu with HL := cpu.HL.Set 0x000D }
  let cpu := { cpu with SP := cpu.SP.Set 0xFFFE }
  { cpu with AF := { cpu.AF with Mask := 0xFFF0 } }

/-- `CPU.setFlag`: internally set the value of a flag bit on the flag
register (the low byte of AF). -/
def CPU.setFlag (cpu : CPU) (index : Nat) (on' : Bool) : CPU :=
  if on' then { cpu with AF := cpu.AF.SetLo (SetBit cpu.AF.Lo index) }
  else { cpu with AF := cpu.AF.SetLo (ResetBit cpu.AF.Lo index) }

/-- `CPU.SetZ` sets the Z flag (bit 7). -/
def CPU.SetZ (cpu : CPU) (on' : Bool) : CPU := cpu.setFlag 7 on'

/-- `CPU.SetN` sets the N flag (bit 6). -/
def CPU.SetN (cpu : CPU) (on' : Bool) : CPU := cpu.setFlag 6 on'

/-- `CPU.SetH` sets the H flag (bit 5). -/
def CPU.SetH (cpu : CPU) (on' : Bool) : CPU := cpu.setFlag 5 on'

/-- `CPU.SetC` sets the C flag (bit 4). -/
def CPU.SetC (cpu : CPU) (on' : Bool) : CPU := cpu.setFlag 4 on'

/-! ## Claim C9: the AF low nibble always reads 0 -/

/-- The register operations on the AF pair named by the claim: `Set`,
`SetHi`, `SetLo`, and the flag setters built on them. -/
inductive RegOp
  | set (v : Nat)
  | setHi (v : Nat)
  | setLo (v : Nat)
  | setZ (on' : Bool)
  | setN (on' : Bool)
  | setH (on' : Bool)
  | setC (on' : Bool)

/-- Apply one register operation to the CPU's AF pair. -/
def CPU.applyRegOp (cpu : CPU) : RegOp → CPU
  | .set v => { cpu with AF := cpu.AF.Set v }
  | .setHi v => { cpu with AF := cpu.AF.SetHi v }
  | .setLo v => { cpu with AF := cpu.AF.SetLo v }
  | .setZ b => cpu.SetZ b
  | .setN b => cpu.SetN b
  | .setH b => cpu.SetH b
  | .setC b => cpu.SetC b

theorem and_fff0_and_f (x : Nat) : x &&& 0xFFF0 &&& 0xF = 0 := by
  rw [Nat.and_assoc]
  have h : (0xFFF0 &&& 0xF : Nat) = 0 := by decide
  rw [h, Nat.and_zero]

theorem updateMask_fff0 (r : Register) (h : r.Mask = 0xFFF0) :
    r.updateMask.Mask = 0xFFF0 ∧ r.updateMask.Value &&& 0xF = 0 := by
  unfold Register.updateMask
  rw [h]
  rw [if_pos (by decide)]
  exact ⟨rfl, and_fff0_and_f _⟩

theorem regOp_inv (cpu : CPU) (h : cpu.AF.Mask = 0xFFF0) (op : RegOp) :
    (cpu.applyRegOp op).AF.Mask = 0xFFF0 ∧
    (cpu.applyRegOp op).AF.Value &&& 0xF = 0 := by
  have hset : ∀ v, ((cpu.AF.Set v).Mask = 0xFFF0 ∧ (cpu.AF.Set v).Value &&& 0xF = 0) :=
    fun v => updateMask_fff0 _ h
  have hsethi : ∀ v, ((cpu.AF.SetHi v).Mask = 0xFFF0 ∧ (cpu.AF.SetHi v).Value &&& 0xF = 0) :=
    fun v => updateMask_fff0 _ h
  have hsetlo : ∀ v, ((cpu.AF.SetLo v).Mask = 0xFFF0 ∧ (cpu.AF.SetLo v).Value &&& 0xF = 0) :=
    fun v => updateMask_fff0 _ h
  cases op with
  | set v => exact hset v
  | setHi v => exact hsethi v
  | setLo v => exact hsetlo v
  | setZ b => cases b <;> exact hsetlo _
  | setN b => cases b <;> exact hsetlo _
  | setH b => cases b <;> exact hsetlo _
  | setC b => cases b <;> exact hsetlo _

theorem foldl_regOp_inv (ops : List RegOp) :
    ∀ cpu : CPU, cpu.AF.Mask = 0xFFF0 → cpu.AF.Value &&& 0xF = 0 →
      (ops.foldl CPU.applyRegOp cpu).AF.Mask = 0xFFF0 ∧
      (ops.foldl CPU.applyRegOp cpu).AF.Value &&& 0xF = 0 := by
  induction ops with
  | nil => intro cpu h1 h2; exact ⟨h1, h2⟩
  | cons op rest ih =>
    intro cpu h1 _
    have hstep := regOp_inv cpu h1 op
    exact ih _ hstep.1 hstep.2

/-- C9: after `CPU.Init` the low nibble of AF is zero, and this is preserved
by every register operation (`Set`, `SetHi`, `SetLo` and the flag setters
built on them): for every sequence of such operations applied to the
initialised CPU, `AF.HiLo &&& 0xF = 0`. -/
theorem C9_af_low_nibble_zero (cgb : Bool) (ops : List RegOp) :
    (CPU.Init cgb).AF.HiLo &&& 0xF = 0 ∧
    (ops.foldl CPU.applyRegOp (CPU.Init cgb)).AF.HiLo &&& 0xF = 0 := by
  have h1 : (CPU.Init cgb).AF.Mask = 0xFFF0 := by cases cgb <;> rfl
  have h2 : (CPU.Init cgb).AF.Value &&& 0xF = 0 := by cases cgb <;> decide
  exact ⟨h2, (foldl_regOp_inv ops (CPU.Init cgb) h1 h2).2⟩

/-! ## CGB palettes (`palettes.go`) and claim C10 -/

/-- `palettes.go`: the `CGBPalette` struct: 64 bytes of palette colour
information, the current index, and the auto-increment flag. -/
structure CGBPalette where
  Palette : Nat → Nat
  Index : Nat
  Inc : Bool

/-- `palettes.go`: `NewPalette` fills the palette memory with 0xFF. -/
def NewPalette : CGBPalette := { Palette := fun _ => 0xFF, Index := 0, Inc := false }

/-- Bounds-checked read of the `[0x40]byte` palette array. -/
def palGet (p : Nat → Nat) (i : Nat) : Option Nat :=
  if i < 0x40 then some (p i) else none

/-- Bounds-checked write to the `[0x40]byte` palette array. -/
def palSet (p : Nat → Nat) (i v : Nat) : Option (Nat → Nat) :=
  if i < 0x40 then some (Function.update p i v) else none

/-- `palettes.go`: `updateIndex` stores the low 6 bits of the written value
as the index and bit 7 as the auto-increment flag. -/
def CGBPalette.updateIndex (pal : CGBPalette) (value : Nat) : CGBPalette :=
  { pal with Index := value &&& 0x3F, Inc := BitIsSet value 7 }

/-- `palettes.go`: `read` returns the palette byte at the current index. -/
def CGBPalette.read (pal : CGBPalette) : Option Nat := palGet pal.Palette pal.Index

/-- `palettes.go`: `readIndex` returns the current index. -/
def CGBPalette.readIndex (pal : CGBPalette) : Nat := pal.Index

/-- `palettes.go`: `write` stores a value at the current index and, if the
auto-increment flag is set, increments the index masked to 6 bits. -/
def CGBPalette.write (pal : CGBPalette) (value : Nat) : Option CGBPalette :=
  (palSet pal.Palette pal.Index value).map fun p =>
    { pal with Palette := p,
               Index := if pal.Inc then (pal.Index + 1) &&& 0x3F else pal.Index }

/-- C10: every `CGBPalette` operation keeps the index inside the 64-byte
palette memory: `NewPalette` starts at 0; `updateIndex` stores only the low
6 bits (so the index is < 0x40); and for an in-bounds index, `read` succeeds
and `write` succeeds and keeps the index in bounds, auto-incrementing modulo
0x40 (wrapping from 0x3F back to 0) when the flag is set. -/
theorem C10_palette_index_in_bounds (pal : CGBPalette) (v : Nat) :
    NewPalette.Index < 0x40 ∧
    (pal.updateIndex v).Index < 0x40 ∧
    (pal.Index < 0x40 →
      pal.read.isSome = true ∧
      ∃ p2, pal.write v = some p2 ∧ p2.Index < 0x40 ∧
        p2.Index = (if pal.Inc then (pal.Index + 1) &&& 0x3F else pal.Index) ∧
        (pal.Index = 0x3F → pal.Inc = true → p2.Index = 0)) := by
  refine ⟨by decide, ?_, ?_⟩
  · have h := Nat.and_le_right (n := v) (m := 0x3F)
    simp only [CGBPalette.updateIndex]
    omega
  · intro hidx
    refine ⟨?_, ?_⟩
    · simp [CGBPalette.read, palGet, hidx]
    · refine ⟨{ pal with
        Palette := Function.update pal.Palette pal.Index v,
        Index := if pal.Inc then (pal.Index + 1) &&& 0x3F else pal.Index },
        ?_, ?_, rfl, ?_⟩
      · simp [CGBPalette.write, palSet, hidx]
      · by_cases hInc : pal.Inc = true
        · have h := Nat.and_le_right (n := pal.Index + 1) (m := 0x3F)
          simp only [hInc, if_true]
          omega
        · simp only [Bool.not_eq_true] at hInc
          simp only [hInc, Bool.false_eq_true, if_false]
          exact hidx
      · intro h3F hInc
        simp only [hInc, if_true, h3F]
        decide

/-- C10 witness: with the index at 0x3F and auto-increment set, a write
succeeds and wraps the index back to 0. -/
theorem C10_palette_index_in_bounds_witness :
    ∃ p2, CGBPalette.write { Palette := fun _ => 0xFF, Index := 0x3F, Inc := true }
      0x12 = some p2 ∧ p2.Index = 0 := by
  obtain ⟨-, -, h⟩ := C10_palette_index_in_bounds
    { Palette := fun _ => 0xFF, Index := 0x3F, Inc := true } 0x12
  obtain ⟨-, p2, hw, -, -, hwrap⟩ := h (by norm_num)
  exact ⟨p2, hw, hwrap rfl rfl⟩

/-! ## Engine orchestrator: `Gameboy.Update`'s cycle accounting (claim C1) -/

/-- `ClockSpeed` is the number of cycles the GameBoy CPU performs each
second. -/
def ClockSpeed : Nat := 4194304

/-- `FramesSecond` is the target number of frames per second. -/
def FramesSecond : Nat := 60

/-- `CyclesPerFrame` is the number of CPU cycles in each frame
(`ClockSpeed / FramesSecond`). -/
def CyclesPerFrame : Nat := ClockSpeed / FramesSecond

/-- Modelled from the spec: the body of one iteration of `Gameboy.Update`'s
`for cycles < CyclesPerFrame` loop executes one opcode (`ExecuteNextOpcode`,
whose implementation is not under src/; 4 cycles when halted), steps graphics
and timers, and services interrupts (`doInterrupts`, 0 or 20 cycles).  Per
§4.6 the loop accumulates "actual cycles spent (instruction cost +
interrupt-service cost)"; the iteration's total cost is abstracted as a
stream `cost : Nat → Nat` giving the cost of the `k`-th iteration since
power-on.  `updateLoop cost fuel k cycles` runs the loop with the source's
stop condition; `fuel` bounds the number of iterations (the loop itself has
no bound; every theorem below supplies enough fuel for positive costs, so
the fuel never runs out on the executions described). -/
def updateLoop (cost : Nat → Nat) : Nat → Nat → Int → Nat × Int
  | 0, k, cycles => (k, cycles)
  | fuel + 1, k, cycles =>
    if cycles < (CyclesPerFrame : Int) then
      updateLoop cost fuel (k + 1) (cycles + cost k)
    else (k, cycles)

/-- `Gameboy.Update`: starting from the carried remainder
(`cycles := ExtraCycles`), run the loop until the frame budget is reached,
then store `cycles - CyclesPerFrame` as the new remainder and return
`cycles`.  The result is `(next iteration index, returned cycle count, new
ExtraCycles)`. -/
def Update (cost : Nat → Nat) (k : Nat) (extra : Int) : Nat × Int × Int :=
  ((updateLoop cost CyclesPerFrame k extra).1,
   (updateLoop cost CyclesPerFrame k extra).2,
   (updateLoop cost CyclesPerFrame k extra).2 - (CyclesPerFrame : Int))

/-- `N` consecutive calls of `Update`, threading the iteration index and the
`ExtraCycles` remainder, and accumulating the total number of cycles actually
executed (each call's return value minus the remainder it started from).
The state is `(iteration index, ExtraCycles, total executed)`. -/
def UpdateN (cost : Nat → Nat) : Nat → Nat × Int × Int → Nat × Int × Int
  | 0, s => s
  | n + 1, (k, e, tot) =>
    UpdateN cost n ((Update cost k e).1, (Update cost k e).2.2,
      tot + ((Update cost k e).2.1 - e))

theorem updateLoop_spec (cost : Nat → Nat) (M : Nat)
    (hpos : ∀ j, 1 ≤ cost j) (hM : ∀ j, cost j ≤ M) :
    ∀ (fuel k : Nat) (cycles : Int), cycles < (CyclesPerFrame : Int) →
      (CyclesPerFrame : Int) ≤ cycles + fuel →
      (CyclesPerFrame : Int) ≤ (updateLoop cost fuel k cycles).2 ∧
      (updateLoop cost fuel k cycles).2 < (CyclesPerFrame : Int) + M := by
  intro fuel
  induction fuel with
  | zero =>
    intro k cycles h1 h2
    exfalso
    omega
  | succ fuel ih =>
    intro k cycles h1 h2
    rw [updateLoop, if_pos h1]
    by_cases h3 : cycles + cost k < (CyclesPerFrame : Int)
    · exact ih (k + 1) (cycles + cost k) h3 (by have := hpos k; push_cast at h2; omega)
    · have hstop : ∀ f k', updateLoop cost f k' (cycles + cost k)
          = (k', cycles + cost k) := by
        intro f k'
        cases f with
        | zero => rfl
        | succ f => rw [updateLoop, if_neg h3]
      rw [hstop]
      have := hM k
      constructor
      · omega
      · omega

theorem Update_spec (cost : Nat → Nat) (M : Nat)
    (hpos : ∀ j, 1 ≤ cost j) (hM : ∀ j, cost j ≤ M)
    (hMF : M ≤ CyclesPerFrame) (k : Nat) (e : Int)
    (he0 : 0 ≤ e) (he1 : e < (M : Int)) :
    (Update cost k e).2.1 = (CyclesPerFrame : Int) + (Update cost k e).2.2 ∧
    0 ≤ (Update cost k e).2.2 ∧ (Update cost k e).2.2 < (M : Int) := by
  have h := updateLoop_spec cost M hpos hM CyclesPerFrame k e
    (by omega) (by omega)
  unfold Update
  dsimp only
  constructor
  · omega
  constructor
  · omega
  · omega

theorem UpdateN_spec (cost : Nat → Nat) (M : Nat)
    (hpos : ∀ j, 1 ≤ cost j) (hM : ∀ j, cost j ≤ M)
    (hMF : M ≤ CyclesPerFrame) :
    ∀ (n k : Nat) (e tot : Int), 0 ≤ e → e < (M : Int) →
      (UpdateN cost n (k, e, tot)).2.2 + e
        = tot + n * (CyclesPerFrame : Int) + (UpdateN cost n (k, e, tot)).2.1 ∧
      0 ≤ (UpdateN cost n (k, e, tot)).2.1 ∧
      (UpdateN cost n (k, e, tot)).2.1 < (M : Int) := by
  intro n
  induction n with
  | zero =>
    intro k e tot he0 he1
    simp only [UpdateN]
    constructor
    · push_cast; omega
    · exact ⟨he0, he1⟩
  | succ n ih =>
    intro k e tot he0 he1
    have h1 := Update_spec cost M hpos hM hMF k e he0 he1
    rw [UpdateN]
    have h2 := ih (Update cost k e).1 (Update cost k e).2.2
      (tot + ((Update cost k e).2.1 - e)) h1.2.1 h1.2.2
    refine ⟨?_, h2.2.1, h2.2.2⟩
    have hcast : ((n + 1 : Nat) : Int) = (n : Int) + 1 := by push_cast; omega
    rw [hcast, add_mul, one_mul]
    have hret := h1.1
    omega

/-- C1: per-frame cycle accounting of `Gameboy.Update`.  For any instruction
cost stream whose per-iteration cost is between 1 and `M` (one instruction's
cost plus the 20-cycle interrupt-service cost, with `M` at most a frame), and
a starting remainder in `[0, M)`: `CyclesPerFrame = ClockSpeed/60 = 69905`;
after `N` calls the total number of executed cycles satisfies
`total + e₀ = N * CyclesPerFrame + e_N` — i.e. counting the carried
remainder, the calls consume exactly `N * CyclesPerFrame` cycles — and the
remainder after every call is non-negative and smaller than `M`, so it is
always within one step's cost of zero. -/
theorem C1_update_cycle_accounting (cost : Nat → Nat) (M n k : Nat) (e : Int)
    (hpos : ∀ j, 1 ≤ cost j) (hM : ∀ j, cost j ≤ M)
    (hMF : M ≤ CyclesPerFrame) (he0 : 0 ≤ e) (he1 : e < (M : Int)) :
    CyclesPerFrame = 69905 ∧
    (UpdateN cost n (k, e, 0)).2.2 + e
      = n * (CyclesPerFrame : Int) + (UpdateN cost n (k, e, 0)).2.1 ∧
    0 ≤ (UpdateN cost n (k, e, 0)).2.1 ∧
    (UpdateN cost n (k, e, 0)).2.1 < (M : Int) := by
  have h := UpdateN_spec cost M hpos hM hMF n k e 0 he0 he1
  refine ⟨by decide, ?_, h.2.1, h.2.2⟩
  have := h.1
  omega

/-- C1 witness: the accounting at a concrete cost stream (every iteration
costs 4 cycles, the halted-CPU cost) with `M = 44`, two calls, and a zero
starting remainder. -/
theorem C1_update_cycle_accounting_witness :
    CyclesPerFrame = 69905 ∧
    (UpdateN (fun _ => 4) 2 (0, 0, 0)).2.2 + 0
      = 2 * (CyclesPerFrame : Int) + (UpdateN (fun _ => 4) 2 (0, 0, 0)).2.1 ∧
    0 ≤ (UpdateN (fun _ => 4) 2 (0, 0, 0)).2.1 ∧
    (UpdateN (fun _ => 4) 2 (0, 0, 0)).2.1 < (44 : Int) := by
  have h := C1_update_cycle_accounting (fun _ => 4) 44 2 0 0
    (fun _ => by norm_num) (fun _ => by norm_num) (by decide) (by norm_num)
    (by norm_num)
  exact_mod_cast h

/-! ## Interrupt dispatch (`Gameboy.doInterrupts` / `serviceInterrupt`)  -/

/-- Modelled from the spec: the memory bus type `Memory` is not under src/
(only its callers are).  Per §4.2 it is the single entry point routing 16-bit
address reads and writes to backing storage and memory-mapped registers; the
interrupt-request byte (0xFF0F), the interrupt-enable byte (0xFFFF) and the
stack RAM touched below are plain backing bytes with no write side effects,
so the bus state is modelled as a byte map and `ReadHighRam`/`Write` as
lookup/update.  (Values written are bytes by construction at every call
site.) -/
structure Memory where
  data : Nat → Nat

/-- The `Gameboy` struct, restricted to the fields the interrupt path
touches (`Memory`, `CPU`, the IME/EI/halt flags); the graphics, audio,
input and cycle-counter fields are omitted as the functions below never
read them. -/
structure Gameboy where
  Memory : Memory
  CPU : CPU
  InterruptsEnabling : Bool
  InterruptsOn : Bool
  Halted : Bool

/-- `Memory.ReadHighRam` as used through `gb.Memory.ReadHighRam(gb, addr)`:
a plain read of the byte map (spec §4.2). -/
def Gameboy.ReadHighRam (gb : Gameboy) (address : Nat) : Nat :=
  gb.Memory.data address

/-- `Memory.Write` as used through `gb.Memory.Write(gb, addr, value)`:
a plain update of the byte map (spec §4.2). -/
def Gameboy.memWrite (gb : Gameboy) (address value : Nat) : Gameboy :=
  { gb with Memory := ⟨Function.update gb.Memory.data address value⟩ }

/-- `interruptAddresses`: the address jumped to by each interrupt
(Go map; a missing key yields the zero value 0). -/
def interruptAddresses : Nat → Nat
  | 0 => 0x40
  | 1 => 0x48
  | 2 => 0x50
  | 3 => 0x58
  | 4 => 0x60
  | _ => 0

/-- `Gameboy.pushStack` pushes a 16-bit value onto the stack and decrements
SP by 2 (high byte at SP-1, low byte at SP-2). -/
def Gameboy.pushStack (gb : Gameboy) (address : Nat) : Gameboy :=
  let sp := gb.CPU.SP.HiLo
  let gb1 := gb.memWrite (u16sub sp 1) ((address &&& 0xFF00) >>> 8)
  let gb2 := gb1.memWrite (u16sub sp 2) (address &&& 0xFF)
  { gb2 with CPU := { gb2.CPU with SP := gb2.CPU.SP.Set (u16sub gb2.CPU.SP.HiLo 2) } }

/-- `Gameboy.serviceInterrupt`: if halted without interrupts, only un-halt;
otherwise clear IME and halted, clear the request bit in 0xFF0F, push PC and
jump to the interrupt's vector. -/
def Gameboy.serviceInterrupt (gb : Gameboy) (interrupt : Nat) : Gameboy :=
  if !gb.InterruptsOn && gb.Halted then { gb with Halted := false }
  else
    let gb1 : Gameboy := { gb with InterruptsOn := false, Halted := false }
    let req := ResetBit (gb1.ReadHighRam 0xFF0F) interrupt
    let gb2 := gb1.memWrite 0xFF0F req
    let gb3 := gb2.pushStack gb2.CPU.PC
    { gb3 with CPU := { gb3.CPU with PC := interruptAddresses interrupt } }

/-- `Gameboy.doInterrupts`: EI's one-shot flag turns IME on (consuming the
step); otherwise, with IME on or the CPU halted, scan request & enable bits
from bit 0 upward and service the first hit for 20 cycles. -/
def Gameboy.doInterrupts (gb : Gameboy) : Gameboy × Nat :=
  if gb.InterruptsEnabling then
    ({ gb with InterruptsOn := true, InterruptsEnabling := false }, 0)
  else if !gb.InterruptsOn && !gb.Halted then (gb, 0)
  else
    if 0 < gb.ReadHighRam 0xFF0F then
      match (List.range 5).find? (fun i =>
          BitIsSet (gb.ReadHighRam 0xFF0F) i &&
          BitIsSet (gb.ReadHighRam 0xFFFF) i) with
      | some i => (gb.serviceInterrupt i, 20)
      | none => (gb, 0)
    else (gb, 0)

theorem u16sub_lt (a b : Nat) : u16sub a b < 0x10000 :=
  Nat.mod_lt _ (by norm_num)

theorem u16sub_one_ne_two (s : Nat) : u16sub s 1 ≠ u16sub s 2 := by
  unfold u16sub
  omega

theorem bitIsSet_resetBit_self (r i : Nat) (hi : i < 8) :
    BitIsSet (ResetBit r i) i = false := by
  rw [bitIsSet_eq_testBit, ResetBit, Nat.testBit_and]
  have hmask : Nat.testBit (((1 <<< i) % 0x100) ^^^ 0xFF) i = false := by
    interval_cases i <;> decide
  rw [hmask, Bool.and_false]

set_option maxRecDepth 4000 in
theorem serviceInterrupt_eq (gb : Gameboy) (i : Nat)
    (hIME : gb.InterruptsOn = true) :
    gb.serviceInterrupt i =
      { gb with
        InterruptsOn := false, Halted := false,
        Memory := ⟨Function.update (Function.update (Function.update gb.Memory.data
          0xFF0F (ResetBit (gb.Memory.data 0xFF0F) i))
          (u16sub gb.CPU.SP.HiLo 1) ((gb.CPU.PC &&& 0xFF00) >>> 8))
          (u16sub gb.CPU.SP.HiLo 2) (gb.CPU.PC &&& 0xFF)⟩,
        CPU := { gb.CPU with
          SP := gb.CPU.SP.Set (u16sub gb.CPU.SP.HiLo 2),
          PC := interruptAddresses i } } := by
  unfold Gameboy.serviceInterrupt
  rw [hIME]
  simp only [Bool.not_true, Bool.false_and]
  rw [if_neg Bool.false_ne_true]
  simp only [Gameboy.pushStack, Gameboy.memWrite, Gameboy.ReadHighRam]

set_option maxRecDepth 40000 in
/-- C2: whenever interrupts are deliverable (IME on, the one-shot
interrupts-enabling flag clear) and bit `i` (the lowest such bit, `i < 5`) is
set in both the request byte 0xFF0F and the enable byte 0xFFFF,
`doInterrupts` services exactly interrupt `i`: it returns 20 cycles, clears
IME and the halted flag, clears request bit `i`, pushes PC onto the stack
(high byte at SP-1, low byte at SP-2, SP decremented by 2) and sets PC to the
fixed vector 0x40/0x48/0x50/0x58/0x60 for bits 0–4.  (The stack-aliasing
hypotheses say the pushed bytes do not land on 0xFF0F itself; `hmask` states
SP carries no AF-style mask, as in every state the source constructs.) -/
theorem C2_interrupt_priority (gb : Gameboy) (i : Nat)
    (hEn : gb.InterruptsEnabling = false)
    (hIME : gb.InterruptsOn = true)
    (hi : i < 5)
    (hreq : BitIsSet (gb.ReadHighRam 0xFF0F) i = true)
    (hen : BitIsSet (gb.ReadHighRam 0xFFFF) i = true)
    (hmin : ∀ j, j < i →
      (BitIsSet (gb.ReadHighRam 0xFF0F) j && BitIsSet (gb.ReadHighRam 0xFFFF) j) = false)
    (hsp1 : u16sub gb.CPU.SP.HiLo 1 ≠ 0xFF0F)
    (hsp2 : u16sub gb.CPU.SP.HiLo 2 ≠ 0xFF0F)
    (hmask : gb.CPU.SP.Mask = 0) :
    (gb.doInterrupts).2 = 20 ∧
    (gb.doInterrupts).1.InterruptsOn = false ∧
    (gb.doInterrupts).1.Halted = false ∧
    (gb.doInterrupts).1.ReadHighRam 0xFF0F = ResetBit (gb.ReadHighRam 0xFF0F) i ∧
    BitIsSet ((gb.doInterrupts).1.ReadHighRam 0xFF0F) i = false ∧
    (gb.doInterrupts).1.CPU.PC = interruptAddresses i ∧
    interruptAddresses i = [0x40, 0x48, 0x50, 0x58, 0x60].getD i 0 ∧
    (gb.doInterrupts).1.ReadHighRam (u16sub gb.CPU.SP.HiLo 1)
      = (gb.CPU.PC &&& 0xFF00) >>> 8 ∧
    (gb.doInterrupts).1.ReadHighRam (u16sub gb.CPU.SP.HiLo 2) = gb.CPU.PC &&& 0xFF ∧
    (gb.doInterrupts).1.CPU.SP.HiLo = u16sub gb.CPU.SP.HiLo 2 := by
  have hreqpos : 0 < gb.ReadHighRam 0xFF0F := by
    rcases Nat.eq_zero_or_pos (gb.ReadHighRam 0xFF0F) with h0 | h0
    · rw [bitIsSet_eq_testBit, h0, Nat.zero_testBit] at hreq
      cases hreq
    · exact h0
  have hfind : (List.range 5).find? (fun j =>
      BitIsSet (gb.ReadHighRam 0xFF0F) j && BitIsSet (gb.ReadHighRam 0xFFFF) j)
      = some i := by
    have hr5 : List.range 5 = [0, 1, 2, 3, 4] := rfl
    rw [hr5]
    interval_cases i
    · simp [List.find?, hreq, hen]
    · have h0 := hmin 0 (by norm_num)
      simp [List.find?, h0, hreq, hen]
    · have h0 := hmin 0 (by norm_num)
      have h1 := hmin 1 (by norm_num)
      simp [List.find?, h0, h1, hreq, hen]
    · have h0 := hmin 0 (by norm_num)
      have h1 := hmin 1 (by norm_num)
      have h2 := hmin 2 (by norm_num)
      simp [List.find?, h0, h1, h2, hreq, hen]
    · have h0 := hmin 0 (by norm_num)
      have h1 := hmin 1 (by norm_num)
      have h2 := hmin 2 (by norm_num)
      have h3 := hmin 3 (by norm_num)
      simp [List.find?, h0, h1, h2, h3, hreq, hen]
  have hdo : gb.doInterrupts = (gb.serviceInterrupt i, 20) := by
    unfold Gameboy.doInterrupts
    rw [hEn]
    rw [if_neg Bool.false_ne_true]
    rw [hIME]
    rw [show ((!true && !gb.Halted) : Bool) = false by simp]
    rw [if_neg Bool.false_ne_true]
    rw [if_pos hreqpos, hfind]
  have hsvc := serviceInterrupt_eq gb i hIME
  rw [hdo, hsvc]
  refine ⟨rfl, rfl, rfl, ?_, ?_, rfl, ?_, ?_, ?_, ?_⟩
  · dsimp only [Gameboy.ReadHighRam]
    rw [Function.update_noteq (Ne.symm hsp2), Function.update_noteq (Ne.symm hsp1),
      Function.update_same]
  · dsimp only [Gameboy.ReadHighRam]
    rw [Function.update_noteq (Ne.symm hsp2), Function.update_noteq (Ne.symm hsp1),
      Function.update_same]
    exact bitIsSet_resetBit_self _ i (by omega)
  · interval_cases i <;> rfl
  · dsimp only [Gameboy.ReadHighRam]
    rw [Function.update_noteq (u16sub_one_ne_two gb.CPU.SP.HiLo),
      Function.update_same]
  · dsimp only [Gameboy.ReadHighRam]
    rw [Function.update_same]
  · dsimp only
    unfold Register.Set Register.updateMask Register.HiLo
    dsimp only
    rw [hmask]
    rw [if_neg (by norm_num)]
    exact Nat.mod_eq_of_lt (u16sub_lt _ _)

/-- The concrete machine state for the C2 witness: V-blank (bit 0) and Timer
(bit 2) both pending and enabled, IME on, SP at its initial 0xFFFE. -/
def testGameboy : Gameboy :=
  { Memory := ⟨Function.update (Function.update (fun _ => 0) 0xFF0F 0x05) 0xFFFF 0x05⟩,
    CPU := { AF := ⟨0x01B0, 0xFFF0⟩, BC := ⟨0, 0⟩, DE := ⟨0xFF56, 0⟩, HL := ⟨0x000D, 0⟩,
             PC := 0x1234, SP := ⟨0xFFFE, 0⟩, Divider := 0 },
    InterruptsEnabling := false, InterruptsOn := true, Halted := false }

/-- C2 witness: with V-blank and Timer simultaneously pending and enabled,
`doInterrupts` costs 20 cycles and jumps to the V-blank vector 0x40. -/
theorem C2_interrupt_priority_witness :
    BitIsSet (testGameboy.ReadHighRam 0xFF0F) 0 = true ∧
    BitIsSet (testGameboy.ReadHighRam 0xFF0F) 2 = true ∧
    (testGameboy.doInterrupts).2 = 20 ∧
    (testGameboy.doInterrupts).1.CPU.PC = 0x40 := by
  have h := C2_interrupt_priority testGameboy 0 rfl rfl (by norm_num)
    (by decide) (by decide) (fun j hj => absurd hj (Nat.not_lt_zero j))
    (by decide) (by decide) rfl
  refine ⟨by decide, by decide, h.1, ?_⟩
  rw [h.2.2.2.2.2.1]
  rfl

end GB
